import Mathlib

/-!
Shallow embedding of `src/api/bitcoin_rpc_failover.py`
(class `BitcoinRPCFailoverManager` and dataclass `BitcoinRPCEndpoint`).

Modelling conventions:
* timestamps (`datetime.now()`, breaker deadlines) are `Nat` values; one
  `now : Time` parameter stands for the clock during one operation;
* latencies and the jitter drawn from `time.time() % 1` are rationals;
* network outcomes are inputs: an oracle `Nat → RpcOutcome` (indexed by the
  position of the endpoint in the registry) tells whether the inner
  `_rpc_call` on that endpoint succeeded or raised after its retries, and an
  oracle `Nat → ProbeOutcome` plays the same role for health-check probes;
* Python's in-place mutation of endpoint records is explicit state passing:
  each loop carries the already-visited (updated) prefix and the untouched
  suffix of `self.endpoints`;
* the `_circuit_open_until` dict keyed by endpoint url is an association
  list `CircuitMap`;
* raised exceptions are `Except.error` with the message the code builds.
-/

/-- Discrete time stamps standing for `datetime` values. -/
abbrev Time := Nat

/-- Mirrors `class EndpointStatus(Enum)`. -/
inductive EndpointStatus where
  | healthy
  | degraded
  | unhealthy
  | unknown
deriving DecidableEq, Repr

/-- Mirrors `@dataclass class BitcoinRPCEndpoint`: the configuration fields
followed by the mutable health-tracking fields, with the same defaults for
the health fields as the dataclass (`UNKNOWN`, `None`, zeros). -/
structure BitcoinRPCEndpoint where
  url : String
  username : String
  password : String
  priority : Int := 0
  name : String := ""
  use_tls : Bool := true
  verify_tls : Bool := true
  timeout : Nat := 30
  status : EndpointStatus := EndpointStatus.unknown
  last_success : Option Time := none
  last_failure : Option Time := none
  consecutive_failures : Nat := 0
  total_requests : Nat := 0
  successful_requests : Nat := 0
  avg_latency_ms : ℚ := 0
deriving DecidableEq, Repr

/-- The tunables of `BitcoinRPCFailoverManager.__init__`, with the same
defaults as the Python signature. -/
structure ManagerConfig where
  health_check_interval : Nat := 30
  max_retries : Nat := 3
  circuit_breaker_threshold : Nat := 5
  circuit_breaker_timeout : Nat := 60
deriving DecidableEq, Repr

/-- The `_circuit_open_until : Dict[str, datetime]` dict, as an association
list from endpoint url to the breaker-open deadline. -/
abbrev CircuitMap := List (String × Time)

/-- Dict lookup `url in self._circuit_open_until` / `dict[url]`. -/
def lookupCircuit (c : CircuitMap) (url : String) : Option Time :=
  match c with
  | [] => none
  | (u, t) :: rest => if u = url then some t else lookupCircuit rest url

/-- Dict assignment `self._circuit_open_until[url] = t` (replaces an
existing binding for the key, otherwise appends one). -/
def insertCircuit (c : CircuitMap) (url : String) (t : Time) : CircuitMap :=
  match c with
  | [] => [(url, t)]
  | (u, t0) :: rest =>
      if u = url then (u, t) :: rest else (u, t0) :: insertCircuit rest url t

/-- Dict deletion `del self._circuit_open_until[url]`. -/
def eraseCircuit (c : CircuitMap) (url : String) : CircuitMap :=
  match c with
  | [] => []
  | (u, t0) :: rest =>
      if u = url then rest else (u, t0) :: eraseCircuit rest url

/-- The `__init__` validation and ordering: `if not endpoints: raise
ValueError(...)` and `self.endpoints = sorted(endpoints, key=lambda x:
x.priority)`.  Python's `sorted` is a stable merge sort ascending by the
key, modelled by `List.mergeSort` on the priority order. -/
def initManager (endpoints : List BitcoinRPCEndpoint) :
    Except String (List BitcoinRPCEndpoint) :=
  if endpoints.isEmpty then
    Except.error "At least one Bitcoin RPC endpoint required"
  else
    Except.ok (endpoints.mergeSort (fun a b => decide (a.priority ≤ b.priority)))

/-- Result of `_mark_endpoint_unhealthy`: the updated endpoint record and
the (possibly extended) breaker map. -/
structure MarkResult where
  endpoint : BitcoinRPCEndpoint
  circuit : CircuitMap
deriving DecidableEq, Repr

/-- Mirrors `_mark_endpoint_unhealthy`: increment `consecutive_failures`,
set `last_failure = now`; if the incremented counter is `≥
circuit_breaker_threshold`, set status `UNHEALTHY` and open the breaker
until `now + circuit_breaker_timeout`, else set status `DEGRADED`. -/
def markEndpointUnhealthy (cfg : ManagerConfig) (now : Time)
    (ep : BitcoinRPCEndpoint) (circuit : CircuitMap) : MarkResult :=
  let ep1 := { ep with consecutive_failures := ep.consecutive_failures + 1
                       last_failure := some now }
  if ep1.consecutive_failures ≥ cfg.circuit_breaker_threshold then
    { endpoint := { ep1 with status := EndpointStatus.unhealthy }
      circuit := insertCircuit circuit ep1.url (now + cfg.circuit_breaker_timeout) }
  else
    { endpoint := { ep1 with status := EndpointStatus.degraded }
      circuit := circuit }

/-- Mirrors `_is_circuit_open`: no entry means closed; an entry with
`now < open_until` means open; an expired entry is lazily deleted and the
breaker reported closed.  Returns the flag and the updated dict. -/
def isCircuitOpen (now : Time) (circuit : CircuitMap)
    (ep : BitcoinRPCEndpoint) : Bool × CircuitMap :=
  match lookupCircuit circuit ep.url with
  | none => (false, circuit)
  | some deadline =>
      if now < deadline then (true, circuit)
      else (false, eraseCircuit circuit ep.url)

/-- The rolling-average step of `_perform_health_checks`: first sample
taken verbatim, later samples smoothed as `avg * 0.9 + latency * 0.1`. -/
def smoothLatency (avg latency : ℚ) : ℚ :=
  if avg = 0 then latency else avg * (9 / 10) + latency * (1 / 10)

/-- Success branch of a health-check probe (`result is not None`): status
`HEALTHY`, `last_success = now`, failure counter reset, smoothed latency. -/
def healthCheckSuccessUpdate (now : Time) (latency : ℚ)
    (ep : BitcoinRPCEndpoint) : BitcoinRPCEndpoint :=
  { ep with status := EndpointStatus.healthy
            last_success := some now
            consecutive_failures := 0
            avg_latency_ms := smoothLatency ep.avg_latency_ms latency }

/-- Success bookkeeping of `rpc_call` (lines 235-245): counters bumped,
`last_success = now`, failure counter reset, status forced to `HEALTHY`
(the code assigns only when it differs, which has the same effect). -/
def dispatchSuccessUpdate (now : Time) (ep : BitcoinRPCEndpoint) :
    BitcoinRPCEndpoint :=
  { ep with successful_requests := ep.successful_requests + 1
            total_requests := ep.total_requests + 1
            last_success := some now
            consecutive_failures := 0
            status := EndpointStatus.healthy }

/-- Failure bookkeeping of `rpc_call` (lines 255-262): bump
`total_requests` and `consecutive_failures`, set `last_failure = now`, and
only when the bumped counter already reaches the breaker threshold call
`_mark_endpoint_unhealthy` (which increments the counter once more). -/
def dispatchFailureUpdate (cfg : ManagerConfig) (now : Time)
    (ep : BitcoinRPCEndpoint) (circuit : CircuitMap) : MarkResult :=
  let ep1 := { ep with total_requests := ep.total_requests + 1
                       consecutive_failures := ep.consecutive_failures + 1
                       last_failure := some now }
  if ep1.consecutive_failures ≥ cfg.circuit_breaker_threshold then
    markEndpointUnhealthy cfg now ep1 circuit
  else
    { endpoint := ep1, circuit := circuit }

/-- Outcome of the inner `_rpc_call(endpoint, method, params, retry=True)`
on one endpoint, after its internal retries: the JSON result, or the last
exception's message. -/
inductive RpcOutcome where
  | success (value : String)
  | failure (err : String)
deriving DecidableEq, Repr

/-- The error message of a failed outcome, if any. -/
def outcomeErr : RpcOutcome → Option String
  | RpcOutcome.success _ => none
  | RpcOutcome.failure e => some e

/-- Whether an outcome is a failure. -/
def RpcOutcome.isFailure : RpcOutcome → Bool
  | RpcOutcome.success _ => false
  | RpcOutcome.failure _ => true

/-- The message of the exception `rpc_call` raises once the loop over
endpoints is exhausted: `f"All Bitcoin RPC endpoints failed. Last error:
\x7blast_exception\x7d"`, where an untouched `last_exception = None` prints
as `None`. -/
def allFailedError (lastErr : Option String) : String :=
  "All Bitcoin RPC endpoints failed. Last error: " ++
    (match lastErr with
     | none => "None"
     | some e => e)

/-- The skip test of lines 224-229: the endpoint is skipped when its
status is `UNHEALTHY` and it is not (dataclass value-)equal to
`self.endpoints[-1]`.  At the moment the test runs only already-visited
endpoints have been mutated, so for a non-last endpoint the last element
of the untouched suffix `rest` is exactly `self.endpoints[-1]`, and for
the last endpoint (`rest = []`) the comparison is with itself, hence never
a skip. -/
def skipUnhealthy (ep : BitcoinRPCEndpoint)
    (rest : List BitcoinRPCEndpoint) : Bool :=
  decide (ep.status = EndpointStatus.unhealthy) &&
    (match rest.getLast? with
     | some l => decide (¬ ep = l)
     | none => false)

/-- Result of one `rpc_call` dispatch: the updated endpoint list and
breaker map, the (ghost) trace of endpoint positions actually attempted,
and either the returned value or the raised exception message. -/
structure DispatchResult where
  endpoints : List BitcoinRPCEndpoint
  circuit : CircuitMap
  attempted : List Nat
  result : Except String String
deriving Repr

/-- The `for endpoint in self.endpoints` loop of `rpc_call` (lines
215-271).  `j` is the position of the head of `remaining` in the registry,
`processed` the already-visited (updated) prefix, `lastErr` the running
`last_exception`, `attempted` the ghost trace. -/
def rpcCallGo (cfg : ManagerConfig) (now : Time) (outcome : Nat → RpcOutcome) :
    Nat → List BitcoinRPCEndpoint → CircuitMap → Option String → List Nat →
    List BitcoinRPCEndpoint → DispatchResult
  | _, [], circuit, lastErr, attempted, processed =>
      { endpoints := processed, circuit := circuit, attempted := attempted
        result := Except.error (allFailedError lastErr) }
  | j, ep :: rest, circuit, lastErr, attempted, processed =>
      let check := isCircuitOpen now circuit ep
      if check.1 then
        rpcCallGo cfg now outcome (j + 1) rest check.2 lastErr attempted
          (processed ++ [ep])
      else if skipUnhealthy ep rest then
        rpcCallGo cfg now outcome (j + 1) rest check.2 lastErr attempted
          (processed ++ [ep])
      else
        match outcome j with
        | RpcOutcome.success v =>
            { endpoints := processed ++ dispatchSuccessUpdate now ep :: rest
              circuit := check.2
              attempted := attempted ++ [j]
              result := Except.ok v }
        | RpcOutcome.failure e =>
            let fr := dispatchFailureUpdate cfg now ep check.2
            rpcCallGo cfg now outcome (j + 1) rest fr.circuit (some e)
              (attempted ++ [j]) (processed ++ [fr.endpoint])

/-- Mirrors `rpc_call(method, params)`: run the failover loop over the
whole registry starting with `last_exception = None`. -/
def rpcCall (cfg : ManagerConfig) (now : Time) (outcome : Nat → RpcOutcome)
    (eps : List BitcoinRPCEndpoint) (circuit : CircuitMap) : DispatchResult :=
  rpcCallGo cfg now outcome 0 eps circuit none [] []

/-- Outcome of the single no-retry probe `_rpc_call(endpoint,
"getblockcount", [], retry=False)`: a measured latency on a non-`None`
result, or anything (exception or `None` result) that marks the endpoint
unhealthy. -/
inductive ProbeOutcome where
  | ok (latency : ℚ)
  | bad
deriving DecidableEq, Repr

/-- The `for endpoint in self.endpoints` loop of `_perform_health_checks`
(lines 131-164), with the same prefix/suffix state passing as
`rpcCallGo`. -/
def performHealthChecksGo (cfg : ManagerConfig) (now : Time)
    (probe : Nat → ProbeOutcome) :
    Nat → List BitcoinRPCEndpoint → CircuitMap → List BitcoinRPCEndpoint →
    List BitcoinRPCEndpoint × CircuitMap
  | _, [], circuit, processed => (processed, circuit)
  | j, ep :: rest, circuit, processed =>
      match probe j with
      | ProbeOutcome.ok latency =>
          performHealthChecksGo cfg now probe (j + 1) rest circuit
            (processed ++ [healthCheckSuccessUpdate now latency ep])
      | ProbeOutcome.bad =>
          let mr := markEndpointUnhealthy cfg now ep circuit
          performHealthChecksGo cfg now probe (j + 1) rest mr.circuit
            (processed ++ [mr.endpoint])

/-- Mirrors one cycle of `_perform_health_checks` over the registry. -/
def performHealthChecks (cfg : ManagerConfig) (now : Time)
    (probe : Nat → ProbeOutcome) (eps : List BitcoinRPCEndpoint)
    (circuit : CircuitMap) : List BitcoinRPCEndpoint × CircuitMap :=
  performHealthChecksGo cfg now probe 0 eps circuit []

/-- The backoff of `_rpc_call` line 325: `wait_time = (2 ** attempt) +
(time.time() % 1)`, the jitter being the fractional part of the clock. -/
def backoffWaitTime (attempt : Nat) (jitter : ℚ) : ℚ :=
  2 ^ attempt + jitter

/-- The `success_rate` field computed by `get_status` (lines 346-349):
`successful_requests / total_requests * 100` when `total_requests > 0`,
else `0`. -/
def successRate (ep : BitcoinRPCEndpoint) : ℚ :=
  if ep.total_requests > 0 then
    (ep.successful_requests : ℚ) / (ep.total_requests : ℚ) * 100
  else 0

/-- A sample endpoint configuration used to instantiate theorems. -/
def epSample (nm : String) (prio : Int) : BitcoinRPCEndpoint :=
  { url := "https://" ++ nm ++ ".bitcoin.local:8332"
    username := "bitcoinrpc"
    password := "secret"
    priority := prio
    name := nm }

/-- A sample endpoint whose status is Unhealthy. -/
def epUnhealthy (nm : String) (prio : Int) : BitcoinRPCEndpoint :=
  { epSample nm prio with status := EndpointStatus.unhealthy }

/-- A sample endpoint state after five marked failures at time 3 under
the default config: Unhealthy with its breaker deadline at 63. -/
def epTripped : BitcoinRPCEndpoint :=
  { epSample "solo" 0 with
      status := EndpointStatus.unhealthy
      consecutive_failures := 5
      last_failure := some 3 }

/-- C1: constructing the manager with an empty endpoint list fails
deterministically with the fatal configuration error, and for every
non-empty endpoint list construction succeeds with a permutation of the
input ordered ascending by priority. -/
theorem initManager_spec (eps : List BitcoinRPCEndpoint) :
    (eps = [] →
      initManager eps = Except.error "At least one Bitcoin RPC endpoint required") ∧
    (eps ≠ [] → ∃ l, initManager eps = Except.ok l ∧ l.Perm eps ∧
      l.Pairwise (fun a b => a.priority ≤ b.priority)) := by
  constructor
  · intro h
    subst h
    simp [initManager]
  · intro h
    refine ⟨eps.mergeSort (fun a b => decide (a.priority ≤ b.priority)), ?_, ?_, ?_⟩
    · simp [initManager, List.isEmpty_iff, h]
    · exact List.mergeSort_perm eps _
    · have hs := @List.sorted_mergeSort BitcoinRPCEndpoint
        (fun a b => decide (a.priority ≤ b.priority))
        (fun a b c hab hbc => by
          simp only [decide_eq_true_eq] at *
          exact le_trans hab hbc)
        (fun a b => by
          simpa using Int.le_total a.priority b.priority)
        eps
      exact hs.imp (fun hab => by simpa using hab)

/-- Membership after a dict assignment: every entry either was already
present or is the freshly written binding. -/
theorem mem_insertCircuit {c : CircuitMap} {url : String} {t : Time}
    {p : String × Time} :
    p ∈ insertCircuit c url t → p ∈ c ∨ p = (url, t) := by
  induction c with
  | nil =>
    intro hp
    simpa [insertCircuit] using hp
  | cons q rest ih =>
    obtain ⟨u, t0⟩ := q
    intro hp
    simp only [insertCircuit] at hp
    split at hp
    · rename_i huv
      rcases List.mem_cons.mp hp with hp | hp
      · exact Or.inr (by simp [hp, huv])
      · exact Or.inl (List.mem_cons_of_mem _ hp)
    · rcases List.mem_cons.mp hp with hp | hp
      · exact Or.inl (by simp [hp])
      · rcases ih hp with h2 | h2
        · exact Or.inl (List.mem_cons_of_mem _ h2)
        · exact Or.inr h2

/-- Dict deletion only removes entries. -/
theorem mem_eraseCircuit {c : CircuitMap} {url : String} {p : String × Time} :
    p ∈ eraseCircuit c url → p ∈ c := by
  induction c with
  | nil =>
    intro hp
    simp [eraseCircuit] at hp
  | cons q rest ih =>
    obtain ⟨u, t0⟩ := q
    intro hp
    simp only [eraseCircuit] at hp
    split at hp
    · exact List.mem_cons_of_mem _ hp
    · rcases List.mem_cons.mp hp with hp | hp
      · simp [hp]
      · exact List.mem_cons_of_mem _ (ih hp)

/-- The lazy-expiry check never adds a breaker entry. -/
theorem mem_isCircuitOpen_snd {now : Time} {c : CircuitMap}
    {ep : BitcoinRPCEndpoint} {p : String × Time}
    (hp : p ∈ (isCircuitOpen now c ep).2) : p ∈ c := by
  unfold isCircuitOpen at hp
  split at hp
  · exact hp
  · split at hp
    · exact hp
    · exact mem_eraseCircuit hp

/-- Looking up the key just written returns the written deadline. -/
theorem lookupCircuit_insertCircuit (c : CircuitMap) (url : String) (t : Time) :
    lookupCircuit (insertCircuit c url t) url = some t := by
  induction c with
  | nil => simp [insertCircuit, lookupCircuit]
  | cons q rest ih =>
    obtain ⟨u, t0⟩ := q
    by_cases h : u = url
    · simp [insertCircuit, lookupCircuit, h]
    · simp [insertCircuit, lookupCircuit, h, ih]

/-- Any breaker entry created by `_mark_endpoint_unhealthy` expires at
`now + circuit_breaker_timeout`. -/
theorem mem_markEndpointUnhealthy_circuit {cfg : ManagerConfig} {now : Time}
    {ep : BitcoinRPCEndpoint} {c : CircuitMap} {p : String × Time}
    (hp : p ∈ (markEndpointUnhealthy cfg now ep c).circuit) :
    p ∈ c ∨ p.2 = now + cfg.circuit_breaker_timeout := by
  unfold markEndpointUnhealthy at hp
  dsimp only at hp
  split at hp
  · rcases mem_insertCircuit hp with h | h
    · exact Or.inl h
    · exact Or.inr (by simp [h])
  · exact Or.inl hp

/-- Any breaker entry created by the dispatcher failure bookkeeping
expires at `now + circuit_breaker_timeout`. -/
theorem mem_dispatchFailureUpdate_circuit {cfg : ManagerConfig} {now : Time}
    {ep : BitcoinRPCEndpoint} {c : CircuitMap} {p : String × Time}
    (hp : p ∈ (dispatchFailureUpdate cfg now ep c).circuit) :
    p ∈ c ∨ p.2 = now + cfg.circuit_breaker_timeout := by
  unfold dispatchFailureUpdate at hp
  dsimp only at hp
  split at hp
  · exact mem_markEndpointUnhealthy_circuit hp
  · exact Or.inl hp

/-- Across one whole `rpc_call` dispatch, every breaker entry either was
already present or carries the `now + circuit_breaker_timeout` deadline
written by `_mark_endpoint_unhealthy`. -/
theorem rpcCallGo_circuit_growth (cfg : ManagerConfig) (now : Time)
    (outcome : Nat → RpcOutcome) :
    ∀ (rem : List BitcoinRPCEndpoint) (j : Nat) (circuit : CircuitMap)
      (lastErr : Option String) (attempted : List Nat)
      (processed : List BitcoinRPCEndpoint) (p : String × Time),
      p ∈ (rpcCallGo cfg now outcome j rem circuit lastErr attempted processed).circuit →
      p ∈ circuit ∨ p.2 = now + cfg.circuit_breaker_timeout := by
  intro rem
  induction rem with
  | nil =>
    intro j circuit lastErr attempted processed p hp
    exact Or.inl hp
  | cons ep rest ih =>
    intro j circuit lastErr attempted processed p hp
    simp only [rpcCallGo] at hp
    split at hp
    · rcases ih _ _ _ _ _ _ hp with h | h
      · exact Or.inl (mem_isCircuitOpen_snd h)
      · exact Or.inr h
    · split at hp
      · rcases ih _ _ _ _ _ _ hp with h | h
        · exact Or.inl (mem_isCircuitOpen_snd h)
        · exact Or.inr h
      · split at hp
        · exact Or.inl (mem_isCircuitOpen_snd hp)
        · rcases ih _ _ _ _ _ _ hp with h | h
          · rcases mem_dispatchFailureUpdate_circuit h with h2 | h2
            · exact Or.inl (mem_isCircuitOpen_snd h2)
            · exact Or.inr h2
          · exact Or.inr h

/-- Across one health-check cycle, every breaker entry either was already
present or carries the `now + circuit_breaker_timeout` deadline written by
`_mark_endpoint_unhealthy`. -/
theorem performHealthChecksGo_circuit_growth (cfg : ManagerConfig)
    (now : Time) (probe : Nat → ProbeOutcome) :
    ∀ (rem : List BitcoinRPCEndpoint) (j : Nat) (circuit : CircuitMap)
      (processed : List BitcoinRPCEndpoint) (p : String × Time),
      p ∈ (performHealthChecksGo cfg now probe j rem circuit processed).2 →
      p ∈ circuit ∨ p.2 = now + cfg.circuit_breaker_timeout := by
  intro rem
  induction rem with
  | nil =>
    intro j circuit processed p hp
    exact Or.inl hp
  | cons ep rest ih =>
    intro j circuit processed p hp
    simp only [performHealthChecksGo] at hp
    split at hp
    · exact ih _ _ _ _ hp
    · rcases ih _ _ _ _ hp with h | h
      · exact mem_markEndpointUnhealthy_circuit h
      · exact Or.inr h

/-- C4: the mark-failure transition increments the consecutive-failure
counter by one and records the failure timestamp; when the incremented
counter reaches the breaker threshold it sets status Unhealthy and opens
the breaker until now plus the breaker timeout, otherwise it sets status
Degraded and leaves the breaker map untouched; the defaults are threshold
5 and timeout 60; and no other transition opens a breaker: across a whole
`rpc_call` dispatch or health-check cycle, any new breaker entry carries
exactly the deadline this transition writes. -/
theorem markEndpointUnhealthy_spec (cfg : ManagerConfig) (now : Time)
    (ep : BitcoinRPCEndpoint) (circuit : CircuitMap) :
    ((markEndpointUnhealthy cfg now ep circuit).endpoint.consecutive_failures =
        ep.consecutive_failures + 1 ∧
      (markEndpointUnhealthy cfg now ep circuit).endpoint.last_failure = some now) ∧
    (ep.consecutive_failures + 1 ≥ cfg.circuit_breaker_threshold →
      (markEndpointUnhealthy cfg now ep circuit).endpoint.status =
        EndpointStatus.unhealthy ∧
      lookupCircuit (markEndpointUnhealthy cfg now ep circuit).circuit ep.url =
        some (now + cfg.circuit_breaker_timeout)) ∧
    (ep.consecutive_failures + 1 < cfg.circuit_breaker_threshold →
      (markEndpointUnhealthy cfg now ep circuit).endpoint.status =
        EndpointStatus.degraded ∧
      (markEndpointUnhealthy cfg now ep circuit).circuit = circuit) ∧
    (({} : ManagerConfig).circuit_breaker_threshold = 5 ∧
      ({} : ManagerConfig).circuit_breaker_timeout = 60) ∧
    (∀ (outcome : Nat → RpcOutcome) (eps : List BitcoinRPCEndpoint)
        (p : String × Time),
      p ∈ (rpcCall cfg now outcome eps circuit).circuit →
      p ∈ circuit ∨ p.2 = now + cfg.circuit_breaker_timeout) ∧
    (∀ (probe : Nat → ProbeOutcome) (eps : List BitcoinRPCEndpoint)
        (p : String × Time),
      p ∈ (performHealthChecks cfg now probe eps circuit).2 →
      p ∈ circuit ∨ p.2 = now + cfg.circuit_breaker_timeout) := by
  refine ⟨⟨?_, ?_⟩, ?_, ?_, ⟨rfl, rfl⟩, ?_, ?_⟩
  · unfold markEndpointUnhealthy
    dsimp only
    split <;> rfl
  · unfold markEndpointUnhealthy
    dsimp only
    split <;> rfl
  · intro h
    unfold markEndpointUnhealthy
    dsimp only
    rw [if_pos h]
    exact ⟨rfl, lookupCircuit_insertCircuit circuit ep.url _⟩
  · intro h
    unfold markEndpointUnhealthy
    dsimp only
    rw [if_neg (by omega)]
    exact ⟨rfl, rfl⟩
  · intro outcome eps p hp
    exact rpcCallGo_circuit_growth cfg now outcome eps 0 circuit none [] [] p hp
  · intro probe eps p hp
    exact performHealthChecksGo_circuit_growth cfg now probe eps 0 circuit [] p hp

/-- Witness for C4: with the default config, a fourth-failure endpoint is
driven to Unhealthy with the breaker open until 3 + 60, while a fresh
endpoint is only Degraded with the breaker map untouched. -/
theorem markEndpointUnhealthy_spec_witness :
    ((markEndpointUnhealthy {} 3
        { epSample "solo" 0 with consecutive_failures := 4 } []).endpoint.status =
      EndpointStatus.unhealthy ∧
     lookupCircuit (markEndpointUnhealthy {} 3
        { epSample "solo" 0 with consecutive_failures := 4 } []).circuit
        ({ epSample "solo" 0 with consecutive_failures := 4 } :
          BitcoinRPCEndpoint).url = some 63) ∧
    ((markEndpointUnhealthy {} 3 (epSample "solo" 0) []).endpoint.status =
      EndpointStatus.degraded ∧
     (markEndpointUnhealthy {} 3 (epSample "solo" 0) []).circuit = []) :=
  ⟨(markEndpointUnhealthy_spec {} 3
      { epSample "solo" 0 with consecutive_failures := 4 } []).2.1 (by decide),
   (markEndpointUnhealthy_spec {} 3 (epSample "solo" 0) []).2.2.1 (by decide)⟩

/-- C5 (amended): the Health Prober's failure path and the Dispatcher's
failure path do not share one transition below the threshold: the prober's
mark-unhealthy sets status Degraded, while the dispatcher's failure
bookkeeping leaves status unchanged (it only increments the counter), so
status is not a pure function of the consecutive-failure counter. -/
theorem failure_paths_status_below_threshold (cfg : ManagerConfig)
    (now : Time) (ep : BitcoinRPCEndpoint) (circuit : CircuitMap)
    (h : ep.consecutive_failures + 1 < cfg.circuit_breaker_threshold) :
    (dispatchFailureUpdate cfg now ep circuit).endpoint.status = ep.status ∧
    (dispatchFailureUpdate cfg now ep circuit).endpoint.consecutive_failures =
      ep.consecutive_failures + 1 ∧
    (markEndpointUnhealthy cfg now ep circuit).endpoint.status =
      EndpointStatus.degraded := by
  refine ⟨?_, ?_, ?_⟩
  · unfold dispatchFailureUpdate
    dsimp only
    rw [if_neg (by omega)]
  · unfold dispatchFailureUpdate
    dsimp only
    rw [if_neg (by omega)]
  · unfold markEndpointUnhealthy
    dsimp only
    rw [if_neg (by omega)]

/-- Witness for C5 (amended) at a fresh endpoint under the default
config: one dispatcher failure leaves status Unknown, one prober failure
makes it Degraded, both with counter 1. -/
theorem failure_paths_status_below_threshold_witness :
    (dispatchFailureUpdate {} 5 (epSample "solo" 0) []).endpoint.status =
      (epSample "solo" 0).status ∧
    (dispatchFailureUpdate {} 5 (epSample "solo" 0) []).endpoint.consecutive_failures = 1 ∧
    (markEndpointUnhealthy {} 5 (epSample "solo" 0) []).endpoint.status =
      EndpointStatus.degraded :=
  failure_paths_status_below_threshold {} 5 (epSample "solo" 0) [] (by decide)

/-- Counterexample to C5 as stated: after one dispatcher-path failure with
the counter (= 1) still below the default threshold (5), the endpoint's
status is Unknown, not Degraded, and it differs from the status (Degraded)
the prober's path produces from the same starting state. -/
theorem status_pure_function_counterexample :
    (dispatchFailureUpdate {} 5 (epSample "solo" 0) []).endpoint.consecutive_failures = 1 ∧
    1 < ({} : ManagerConfig).circuit_breaker_threshold ∧
    (dispatchFailureUpdate {} 5 (epSample "solo" 0) []).endpoint.status =
      EndpointStatus.unknown ∧
    (dispatchFailureUpdate {} 5 (epSample "solo" 0) []).endpoint.status ≠
      EndpointStatus.degraded ∧
    (markEndpointUnhealthy {} 5 (epSample "solo" 0) []).endpoint.status =
      EndpointStatus.degraded := by
  refine ⟨rfl, by decide, rfl, by decide, rfl⟩

/-- C7 (amended): when all retries on the selected endpoint fail, the
dispatcher's bookkeeping bumps the total-request counter by exactly one
and records the failure timestamp; the consecutive-failure counter grows
by exactly one while the bumped value stays below the breaker threshold,
but by exactly two when it reaches it (the dispatcher increments and then
`_mark_endpoint_unhealthy` increments again). -/
theorem dispatchFailureUpdate_spec (cfg : ManagerConfig) (now : Time)
    (ep : BitcoinRPCEndpoint) (circuit : CircuitMap) :
    (dispatchFailureUpdate cfg now ep circuit).endpoint.total_requests =
      ep.total_requests + 1 ∧
    (dispatchFailureUpdate cfg now ep circuit).endpoint.last_failure = some now ∧
    (ep.consecutive_failures + 1 < cfg.circuit_breaker_threshold →
      (dispatchFailureUpdate cfg now ep circuit).endpoint.consecutive_failures =
        ep.consecutive_failures + 1) ∧
    (ep.consecutive_failures + 1 ≥ cfg.circuit_breaker_threshold →
      (dispatchFailureUpdate cfg now ep circuit).endpoint.consecutive_failures =
        ep.consecutive_failures + 2) := by
  refine ⟨?_, ?_, ?_, ?_⟩
  · unfold dispatchFailureUpdate markEndpointUnhealthy
    dsimp only
    split
    · split <;> rfl
    · rfl
  · unfold dispatchFailureUpdate markEndpointUnhealthy
    dsimp only
    split
    · split <;> rfl
    · rfl
  · intro h
    unfold dispatchFailureUpdate
    dsimp only
    rw [if_neg (by omega)]
  · intro h
    unfold dispatchFailureUpdate markEndpointUnhealthy
    dsimp only
    rw [if_pos (by omega)]
    split <;> rfl

/-- Witness for C7 (amended): below the threshold the counter goes 0 → 1;
at the threshold it goes 4 → 6, in both cases with total requests up by
one and the failure timestamp recorded. -/
theorem dispatchFailureUpdate_spec_witness :
    ((dispatchFailureUpdate {} 7 (epSample "solo" 0) []).endpoint.total_requests =
        (epSample "solo" 0).total_requests + 1 ∧
      (dispatchFailureUpdate {} 7 (epSample "solo" 0) []).endpoint.consecutive_failures = 1) ∧
    (dispatchFailureUpdate {} 7
        { epSample "solo" 0 with consecutive_failures := 4 } []).endpoint.consecutive_failures = 6 :=
  ⟨⟨(dispatchFailureUpdate_spec {} 7 (epSample "solo" 0) []).1,
    (dispatchFailureUpdate_spec {} 7 (epSample "solo" 0) []).2.2.1 (by decide)⟩,
   (dispatchFailureUpdate_spec {} 7
      { epSample "solo" 0 with consecutive_failures := 4 } []).2.2.2 (by decide)⟩

/-- C6: during one dispatch, an endpoint with an open breaker is skipped
unconditionally — in particular an open breaker on the last endpoint
fully excludes it, so a sole endpoint with an open breaker yields the
exhaustion error with nothing attempted — whereas an Unhealthy endpoint
is skipped only when it is not the last endpoint of the registry; the
last endpoint is attempted even when Unhealthy. -/
theorem rpc_skip_policy (cfg : ManagerConfig) (now : Time)
    (outcome : Nat → RpcOutcome) (j : Nat) (ep : BitcoinRPCEndpoint)
    (rest : List BitcoinRPCEndpoint) (circuit : CircuitMap)
    (lastErr : Option String) (attempted : List Nat)
    (processed : List BitcoinRPCEndpoint) :
    ((isCircuitOpen now circuit ep).1 = true →
      rpcCallGo cfg now outcome j (ep :: rest) circuit lastErr attempted processed =
        rpcCallGo cfg now outcome (j + 1) rest (isCircuitOpen now circuit ep).2
          lastErr attempted (processed ++ [ep])) ∧
    ((isCircuitOpen now circuit ep).1 = true → rest = [] →
      (rpcCallGo cfg now outcome j (ep :: rest) circuit lastErr attempted
          processed).attempted = attempted ∧
      (rpcCallGo cfg now outcome j (ep :: rest) circuit lastErr attempted
          processed).result = Except.error (allFailedError lastErr)) ∧
    ((isCircuitOpen now circuit ep).1 = false →
      ep.status = EndpointStatus.unhealthy →
      ∀ l, rest.getLast? = some l → ep ≠ l →
      rpcCallGo cfg now outcome j (ep :: rest) circuit lastErr attempted processed =
        rpcCallGo cfg now outcome (j + 1) rest (isCircuitOpen now circuit ep).2
          lastErr attempted (processed ++ [ep])) ∧
    ((isCircuitOpen now circuit ep).1 = false →
      ep.status = EndpointStatus.unhealthy → rest = [] →
      (rpcCallGo cfg now outcome j (ep :: rest) circuit lastErr attempted
          processed).attempted = attempted ++ [j]) := by
  refine ⟨?_, ?_, ?_, ?_⟩
  · intro ho
    simp [rpcCallGo, ho]
  · intro ho hrest
    subst hrest
    constructor <;> simp [rpcCallGo, ho]
  · intro ho hst l hl hne
    have hskip : skipUnhealthy ep rest = true := by
      simp [skipUnhealthy, hst, hl, hne]
    simp [rpcCallGo, ho, hskip]
  · intro ho hst hrest
    subst hrest
    have hskip : skipUnhealthy ep ([] : List BitcoinRPCEndpoint) = false := by
      simp [skipUnhealthy]
    cases hout : outcome j with
    | success v => simp [rpcCallGo, ho, hskip, hout]
    | failure msg => simp [rpcCallGo, ho, hskip, hout]

/-- Witness for C6: a sole endpoint with an open breaker is fully
excluded (error, nothing attempted); an Unhealthy first endpoint in a
two-endpoint registry is skipped; a sole Unhealthy endpoint is still
attempted. -/
theorem rpc_skip_policy_witness :
    ((rpcCallGo {} 10 (fun _ => RpcOutcome.success "ok") 0
        [epTripped] [(epTripped.url, 63)] none [] []).attempted = [] ∧
     (rpcCallGo {} 10 (fun _ => RpcOutcome.success "ok") 0
        [epTripped] [(epTripped.url, 63)] none [] []).result =
       Except.error (allFailedError none)) ∧
    (rpcCallGo {} 10 (fun _ => RpcOutcome.success "ok") 0
        [epUnhealthy "primary" 0, epSample "backup" 1] [] none [] [] =
      rpcCallGo {} 10 (fun _ => RpcOutcome.success "ok") 1 [epSample "backup" 1]
        [] none [] [epUnhealthy "primary" 0]) ∧
    (rpcCallGo {} 10 (fun _ => RpcOutcome.success "ok") 0
        [epUnhealthy "solo" 0] [] none [] []).attempted = [0] := by
  refine ⟨?_, ?_, ?_⟩
  · exact (rpc_skip_policy {} 10 (fun _ => RpcOutcome.success "ok") 0
      epTripped [] [(epTripped.url, 63)] none [] []).2.1 (by decide) rfl
  · exact (rpc_skip_policy {} 10 (fun _ => RpcOutcome.success "ok") 0
      (epUnhealthy "primary" 0)
      [epSample "backup" 1] [] none [] []).2.2.1 rfl rfl
      (epSample "backup" 1) rfl (by decide)
  · exact (rpc_skip_policy {} 10 (fun _ => RpcOutcome.success "ok") 0
      (epUnhealthy "solo" 0) []
      [] none [] []).2.2.2 rfl rfl rfl

/-- Failures recorded in the running trace determine `last_exception`:
auxiliary invariant for the exhaustion error of `rpc_call`. -/
theorem rpcCallGo_error_shape (cfg : ManagerConfig) (now : Time)
    (outcome : Nat → RpcOutcome) :
    ∀ (rem : List BitcoinRPCEndpoint) (j : Nat) (circuit : CircuitMap)
      (lastErr : Option String) (attempted : List Nat)
      (processed : List BitcoinRPCEndpoint),
      lastErr = (attempted.filterMap fun i => outcomeErr (outcome i)).getLast? →
      (∀ i ∈ attempted, (outcome i).isFailure = true) →
      ∀ e, (rpcCallGo cfg now outcome j rem circuit lastErr attempted
        processed).result = Except.error e →
      (∀ i ∈ (rpcCallGo cfg now outcome j rem circuit lastErr attempted
          processed).attempted, (outcome i).isFailure = true) ∧
      e = allFailedError
        (((rpcCallGo cfg now outcome j rem circuit lastErr attempted
          processed).attempted.filterMap fun i => outcomeErr (outcome i)).getLast?) := by
  intro rem
  induction rem with
  | nil =>
    intro j circuit lastErr attempted processed hlast hfail e he
    simp only [rpcCallGo] at he ⊢
    refine ⟨hfail, ?_⟩
    simp only [Except.error.injEq] at he
    rw [← he, hlast]
  | cons ep rest ih =>
    intro j circuit lastErr attempted processed hlast hfail e he
    simp only [rpcCallGo] at he ⊢
    cases ho : (isCircuitOpen now circuit ep).1 with
    | true =>
      simp only [ho, if_true] at he ⊢
      exact ih _ _ _ _ _ hlast hfail e he
    | false =>
      simp only [ho, Bool.false_eq_true, if_false] at he ⊢
      cases hs : skipUnhealthy ep rest with
      | true =>
        simp only [hs, if_true] at he ⊢
        exact ih _ _ _ _ _ hlast hfail e he
      | false =>
        simp only [hs, Bool.false_eq_true, if_false] at he ⊢
        split at he
        · simp at he
        · rename_i msg hout
          refine ih _ _ _ _ _ ?_ ?_ e he
          · rw [List.filterMap_append]
            have hstep : List.filterMap (fun i => outcomeErr (outcome i)) [j] = [msg] := by
              simp [hout, outcomeErr]
            rw [hstep, List.getLast?_concat]
          · intro i hi
            rcases List.mem_append.mp hi with hi | hi
            · exact hfail i hi
            · have hij : i = j := by simpa using hi
              subst hij
              simp [hout, RpcOutcome.isFailure]

/-- C2 (amended): within one dispatched call, `rpc_call` raises only after
the loop has exhausted the whole registry — every endpoint tried in that
call failed, while the remaining ones were skipped (open breaker, or
Unhealthy and not last, per the skip policy); the raised error is always
the single aggregate all-endpoints-failed exception, and it names the last
underlying error encountered in that call (printing `None` when every
endpoint was skipped and none was tried). -/
theorem rpcCall_error_spec (cfg : ManagerConfig) (now : Time)
    (outcome : Nat → RpcOutcome) (eps : List BitcoinRPCEndpoint)
    (circuit : CircuitMap) :
    ∀ e, (rpcCall cfg now outcome eps circuit).result = Except.error e →
      (∀ i ∈ (rpcCall cfg now outcome eps circuit).attempted,
        (outcome i).isFailure = true) ∧
      e = allFailedError
        (((rpcCall cfg now outcome eps circuit).attempted.filterMap
          fun i => outcomeErr (outcome i)).getLast?) := by
  intro e he
  exact rpcCallGo_error_shape cfg now outcome eps 0 circuit none [] []
    (by simp) (by simp) e he

/-- Witness for C2 (amended): with two endpoints that both fail, the call
errors, every attempted endpoint failed, and the message wraps the last
underlying error. -/
theorem rpcCall_error_spec_witness :
    (∀ i ∈ (rpcCall {} 10
        (fun i => RpcOutcome.failure (if i = 0 then "refused" else "timeout"))
        [epSample "primary" 0, epSample "backup" 1] []).attempted,
      ((fun i => RpcOutcome.failure
        (if i = 0 then "refused" else "timeout")) i).isFailure = true) ∧
    "All Bitcoin RPC endpoints failed. Last error: timeout" = allFailedError
      (((rpcCall {} 10
        (fun i => RpcOutcome.failure (if i = 0 then "refused" else "timeout"))
        [epSample "primary" 0, epSample "backup" 1] []).attempted.filterMap
          fun i => outcomeErr ((fun i => RpcOutcome.failure
            (if i = 0 then "refused" else "timeout")) i)).getLast?) :=
  rpcCall_error_spec {} 10
    (fun i => RpcOutcome.failure (if i = 0 then "refused" else "timeout"))
    [epSample "primary" 0, epSample "backup" 1] []
    "All Bitcoin RPC endpoints failed. Last error: timeout" rfl

/-- Counterexample to C2 as stated: the exhaustion error is not raised
only when every endpoint has been tried and failed.  A sole endpoint
whose breaker is open (here opened after five marked failures, with the
clock still before the deadline) is skipped, and `rpc_call` raises the
aggregate error naming no underlying error (`None`) although no endpoint
was tried in the call at all. -/
theorem rpc_error_without_attempt_counterexample :
    (rpcCall {} 10 (fun _ => RpcOutcome.failure "refused")
      [epTripped] [(epTripped.url, 63)]).result =
        Except.error "All Bitcoin RPC endpoints failed. Last error: None" ∧
    (rpcCall {} 10 (fun _ => RpcOutcome.failure "refused")
      [epTripped] [(epTripped.url, 63)]).attempted = [] := by
  constructor <;> rfl

/-- C3 (amended): when the inner call on a non-skipped endpoint succeeds,
the dispatch returns that value at once — no later endpoint is visited,
the attempted trace ends at this endpoint and the suffix of the registry
is untouched — after resetting the consecutive-failure counter to 0,
incrementing the successful- and total-request counters, recording the
success timestamp and forcing status Healthy; the smoothed latency
average is left unchanged (only the health prober updates it). -/
theorem rpc_success_step (cfg : ManagerConfig) (now : Time)
    (outcome : Nat → RpcOutcome) (j : Nat) (ep : BitcoinRPCEndpoint)
    (rest : List BitcoinRPCEndpoint) (circuit : CircuitMap)
    (lastErr : Option String) (attempted : List Nat)
    (processed : List BitcoinRPCEndpoint) (v : String)
    (hopen : (isCircuitOpen now circuit ep).1 = false)
    (hskip : skipUnhealthy ep rest = false)
    (hout : outcome j = RpcOutcome.success v) :
    rpcCallGo cfg now outcome j (ep :: rest) circuit lastErr attempted processed =
      { endpoints := processed ++ dispatchSuccessUpdate now ep :: rest
        circuit := (isCircuitOpen now circuit ep).2
        attempted := attempted ++ [j]
        result := Except.ok v } ∧
    (dispatchSuccessUpdate now ep).consecutive_failures = 0 ∧
    (dispatchSuccessUpdate now ep).successful_requests = ep.successful_requests + 1 ∧
    (dispatchSuccessUpdate now ep).total_requests = ep.total_requests + 1 ∧
    (dispatchSuccessUpdate now ep).status = EndpointStatus.healthy ∧
    (dispatchSuccessUpdate now ep).last_success = some now ∧
    (dispatchSuccessUpdate now ep).avg_latency_ms = ep.avg_latency_ms := by
  refine ⟨?_, rfl, rfl, rfl, rfl, rfl, rfl⟩
  simp only [rpcCallGo, hopen, hskip, hout]
  simp

/-- Witness for C3 (amended): a concrete one-endpoint dispatch whose call
succeeds returns the value with the bookkeeping applied. -/
theorem rpc_success_step_witness :
    (rpcCallGo {} 7 (fun _ => RpcOutcome.success "ok") 0
        [epSample "solo" 0] [] none [] []).result = Except.ok "ok" ∧
    (rpcCallGo {} 7 (fun _ => RpcOutcome.success "ok") 0
        [epSample "solo" 0] [] none [] []).attempted = [0] ∧
    (dispatchSuccessUpdate 7 (epSample "solo" 0)).consecutive_failures = 0 ∧
    (dispatchSuccessUpdate 7 (epSample "solo" 0)).avg_latency_ms =
      (epSample "solo" 0).avg_latency_ms := by
  have h := rpc_success_step {} 7 (fun _ => RpcOutcome.success "ok") 0
    (epSample "solo" 0) [] [] none [] [] "ok" rfl rfl rfl
  exact ⟨by rw [h.1], by rw [h.1]; rfl, h.2.1, h.2.2.2.2.2.2⟩

/-- Counterexample to C3 as stated: a dispatched success does not record
the call's latency into the smoothed average.  On an endpoint with no
samples the success bookkeeping leaves the average at 0, whereas recording
a latency of 100 through the smoothing the code itself uses for probe
successes would yield 100. -/
theorem dispatch_success_latency_counterexample :
    (dispatchSuccessUpdate 7 (epSample "solo" 0)).avg_latency_ms = 0 ∧
    smoothLatency (epSample "solo" 0).avg_latency_ms 100 = 100 ∧
    (dispatchSuccessUpdate 7 (epSample "solo" 0)).avg_latency_ms ≠
      smoothLatency (epSample "solo" 0).avg_latency_ms 100 := by
  refine ⟨rfl, ?_, ?_⟩
  · simp [smoothLatency, epSample]
  · simp [smoothLatency, epSample, dispatchSuccessUpdate]

/-- Counterexample to C7 as stated: starting from 4 consecutive failures
under the default threshold 5, one failed dispatch leaves the counter at
6, not 4 + 1: the dispatcher increments it and then the mark-failure
transition increments it a second time. -/
theorem dispatch_failure_single_increment_counterexample :
    (dispatchFailureUpdate {} 7
        { epSample "solo" 0 with consecutive_failures := 4 } []).endpoint.consecutive_failures = 6 ∧
    (6 : Nat) ≠ 4 + 1 :=
  ⟨rfl, by decide⟩

/-- Witness for C1: the empty list is rejected, and a concrete two-element
list (given out of priority order) is accepted as a sorted permutation. -/
theorem initManager_spec_witness :
    (initManager [] = Except.error "At least one Bitcoin RPC endpoint required") ∧
    (∃ l, initManager [epSample "backup" 1, epSample "primary" 0] = Except.ok l ∧
      l.Perm [epSample "backup" 1, epSample "primary" 0] ∧
      l.Pairwise (fun a b => a.priority ≤ b.priority)) :=
  ⟨(initManager_spec []).1 rfl,
   (initManager_spec [epSample "backup" 1, epSample "primary" 0]).2 (by simp)⟩

/-- C8: the delay slept between retry attempt `k` and attempt `k + 1`
equals `2 ^ k` plus the jitter, a fractional clock part lying in `[0, 1)`;
hence it is bounded below by `2 ^ k` and monotonically non-decreasing in
`k` even across different jitter draws. -/
theorem backoffWaitTime_spec (k : Nat) (jit jit2 : ℚ)
    (h0 : 0 ≤ jit) (h1 : jit < 1) (h0b : 0 ≤ jit2) (_h1b : jit2 < 1) :
    backoffWaitTime k jit = 2 ^ k + jit ∧
    (2 : ℚ) ^ k ≤ backoffWaitTime k jit ∧
    backoffWaitTime k jit ≤ backoffWaitTime (k + 1) jit2 := by
  have hpow : (1 : ℚ) ≤ 2 ^ k := one_le_pow₀ (by norm_num)
  have hsucc : (2 : ℚ) ^ (k + 1) = 2 ^ k * 2 := pow_succ 2 k
  refine ⟨rfl, ?_, ?_⟩
  · unfold backoffWaitTime
    linarith
  · unfold backoffWaitTime
    rw [hsucc]
    linarith

/-- Witness for C8 at attempt index 1 with jitter draws 1/2 and 0: the
delay is 2 + 1/2, at least 2, and at most the next delay 4 + 0. -/
theorem backoffWaitTime_spec_witness :
    backoffWaitTime 1 (1 / 2) = 2 ^ 1 + 1 / 2 ∧
    (2 : ℚ) ^ 1 ≤ backoffWaitTime 1 (1 / 2) ∧
    backoffWaitTime 1 (1 / 2) ≤ backoffWaitTime (1 + 1) 0 :=
  backoffWaitTime_spec 1 (1 / 2) 0 (by norm_num) (by norm_num)
    (by norm_num) (by norm_num)

/-- C9 (amended): the success rate reported by `get_status` is the ratio
of successful to total requests expressed as a percentage — successful
divided by total, multiplied by 100 — when the total-request counter is
positive, and is 0 (with no division) when the counter is 0. -/
theorem successRate_spec (ep : BitcoinRPCEndpoint) :
    (ep.total_requests > 0 →
      successRate ep =
        (ep.successful_requests : ℚ) / (ep.total_requests : ℚ) * 100) ∧
    (ep.total_requests = 0 → successRate ep = 0) := by
  constructor
  · intro h
    unfold successRate
    rw [if_pos h]
  · intro h
    unfold successRate
    rw [if_neg (by omega)]

/-- Witness for C9 (amended): one success out of two requests reports 50,
and a fresh endpoint with zero requests reports 0. -/
theorem successRate_spec_witness :
    successRate { epSample "solo" 0 with successful_requests := 1, total_requests := 2 } =
      ((({ epSample "solo" 0 with successful_requests := 1, total_requests := 2 } :
        BitcoinRPCEndpoint).successful_requests : ℚ) / 2) * 100 ∧
    successRate (epSample "solo" 0) = 0 :=
  ⟨(successRate_spec
      { epSample "solo" 0 with successful_requests := 1, total_requests := 2 }).1
      (by decide),
   (successRate_spec (epSample "solo" 0)).2 rfl⟩

/-- Counterexample to C9 as stated: with 1 success out of 2 requests the
snapshot reports a success rate of 50, not the quotient 1 / 2 — the code
multiplies the ratio by 100. -/
theorem successRate_ratio_counterexample :
    successRate { epSample "solo" 0 with successful_requests := 1, total_requests := 2 } = 50 ∧
    ((({ epSample "solo" 0 with successful_requests := 1, total_requests := 2 } :
        BitcoinRPCEndpoint).successful_requests : ℚ) /
      (({ epSample "solo" 0 with successful_requests := 1, total_requests := 2 } :
        BitcoinRPCEndpoint).total_requests : ℚ)) = 1 / 2 ∧
    successRate { epSample "solo" 0 with successful_requests := 1, total_requests := 2 } ≠ 1 / 2 := by
  refine ⟨?_, ?_, ?_⟩
  · norm_num [successRate]
  · norm_num
  · norm_num [successRate]

/-- The mark-unhealthy transition never touches the request counters. -/
theorem markEndpointUnhealthy_counters (cfg : ManagerConfig) (now : Time)
    (ep : BitcoinRPCEndpoint) (c : CircuitMap) :
    (markEndpointUnhealthy cfg now ep c).endpoint.total_requests =
      ep.total_requests ∧
    (markEndpointUnhealthy cfg now ep c).endpoint.successful_requests =
      ep.successful_requests := by
  unfold markEndpointUnhealthy
  dsimp only
  constructor <;> (split <;> rfl)

/-- Request counters across the health-check loop: the processed prefix
keeps growing, every updated endpoint keeping its counters. -/
theorem performHealthChecksGo_counters (cfg : ManagerConfig) (now : Time)
    (probe : Nat → ProbeOutcome) :
    ∀ (rem : List BitcoinRPCEndpoint) (j : Nat) (circuit : CircuitMap)
      (processed : List BitcoinRPCEndpoint),
      ((performHealthChecksGo cfg now probe j rem circuit processed).1.map
          (fun e => e.total_requests) =
        processed.map (fun e => e.total_requests) ++
          rem.map (fun e => e.total_requests)) ∧
      ((performHealthChecksGo cfg now probe j rem circuit processed).1.map
          (fun e => e.successful_requests) =
        processed.map (fun e => e.successful_requests) ++
          rem.map (fun e => e.successful_requests)) := by
  intro rem
  induction rem with
  | nil =>
    intro j circuit processed
    simp [performHealthChecksGo]
  | cons ep rest ih =>
    intro j circuit processed
    simp only [performHealthChecksGo]
    cases hp : probe j with
    | ok lat =>
      have h := ih (j + 1) circuit
        (processed ++ [healthCheckSuccessUpdate now lat ep])
      constructor
      · rw [h.1]
        simp [healthCheckSuccessUpdate]
      · rw [h.2]
        simp [healthCheckSuccessUpdate]
    | bad =>
      have h := ih (j + 1) (markEndpointUnhealthy cfg now ep circuit).circuit
        (processed ++ [(markEndpointUnhealthy cfg now ep circuit).endpoint])
      constructor
      · rw [h.1]
        simp [(markEndpointUnhealthy_counters cfg now ep circuit).1]
      · rw [h.2]
        simp [(markEndpointUnhealthy_counters cfg now ep circuit).2]

/-- C10: a health-check cycle never changes any endpoint's total-request
or successful-request counter, whichever way each probe turns out; those
counters record dispatched `rpc_call` traffic only, so the reported
success rate excludes probe outcomes. -/
theorem healthChecks_preserve_request_counters (cfg : ManagerConfig)
    (now : Time) (probe : Nat → ProbeOutcome)
    (eps : List BitcoinRPCEndpoint) (circuit : CircuitMap) :
    ((performHealthChecks cfg now probe eps circuit).1.map
        (fun e => e.total_requests) = eps.map (fun e => e.total_requests)) ∧
    ((performHealthChecks cfg now probe eps circuit).1.map
        (fun e => e.successful_requests) =
      eps.map (fun e => e.successful_requests)) := by
  have h := performHealthChecksGo_counters cfg now probe eps 0 circuit []
  simpa [performHealthChecks] using h
